import Mathlib

/-!
Verification development for the NicoTracker habit-tracking application.

The embedding follows the JavaScript source:
* the charts/analytics module (`computeSweetSpotMatrix`, `getDailyStats`, ...);
* the storage module (`addLog`, `updateLog`, `importData`, `calculateStreak`,
  `getTimeOfDay`, `calculateEstimatedMg`);
* the record-construction paths of the app controller (`confirmWizard`,
  `submitCognitiveCheckIn`).

Modelling conventions:
* JavaScript numbers are embedded as `ℚ` (all arithmetic in the claims is
  exact decimal arithmetic on small values);
* nullable / possibly-absent fields are `Option` types, with `none` standing
  for both `null` and `undefined`;
* `YYYY-MM-DD` calendar-date strings are embedded as `ℤ` day numbers: the
  source compares them only for equality and steps them back one calendar
  day at a time, which becomes subtraction by 1;
* a creation instant (`new Date()`) is a structure holding UTC minutes and
  the timezone offset in minutes (`getTimezoneOffset` convention:
  local time = UTC time − offset).
-/

namespace NicoTracker

/-- The four time-of-day categories used throughout the app. -/
inductive TimeOfDay
  | morning
  | afternoon
  | evening
  | night
deriving DecidableEq

/-- A stored log record, with the fields of the `LogRecord` data model.
Nullable fields are `Option`s; `date` is an integer calendar-day number. -/
structure LogRecord where
  id : String
  timestamp : String
  date : ℤ
  timeOfDay : Option TimeOfDay
  source : String
  unitType : String
  amount : ℚ
  estimatedMg : Option ℚ
  reason : Option String
  healthEffects : List String
  focusLevel : Option ℚ
  anxietyLevel : Option ℚ
  clearThinking : Option Bool
  notes : Option String
deriving DecidableEq

/-- User settings: `DEFAULT_SETTINGS` shape from the storage module. -/
structure Settings where
  dailyMgLimit : ℚ
  dailyEventLimit : ℚ
  morningLimitEnabled : Bool
  timezoneOffsetMinutes : ℤ
deriving DecidableEq

/-- The whole durable store: the logs slot and the settings slot. -/
structure Store where
  logs : List LogRecord
  settings : Settings
deriving DecidableEq

/-- Embeds `getTimeOfDay` from the storage module: classifies a local hour
(0–23, from `date.getHours()`) into a time-of-day category. -/
def getTimeOfDay (hour : ℕ) : TimeOfDay :=
  if 5 ≤ hour ∧ hour < 12 then .morning
  else if 12 ≤ hour ∧ hour < 17 then .afternoon
  else if 17 ≤ hour ∧ hour < 22 then .evening
  else .night

/-- Embeds `calculateEstimatedMg` from the storage module.  The source's
`!quantity || quantity <= 0` collapses to `quantity ≤ 0` over `ℚ`
(there is no NaN), and likewise for `strength`; the `switch` on the source
string becomes an `if` chain. -/
def calculateEstimatedMg (source : String) (quantity strength : ℚ) : ℚ :=
  if quantity ≤ 0 then 0
  else if strength ≤ 0 then 0
  else if source = "Vape" then strength / 200 * quantity
  else if source = "Cigarettes" then strength * quantity
  else if source = "Snus" then strength * quantity
  else 0

/-- One dose bucket of the sweet-spot matrix: `{min, max, label}`. -/
structure DoseBucket where
  min : ℚ
  max : ℚ
  label : String
deriving DecidableEq

/-- The `doseBuckets` table of `computeSweetSpotMatrix`, exactly as in the
source (note the last bucket's `max` is the literal `999`). -/
def doseBuckets : List DoseBucket :=
  [⟨0, 5, "0-5 mg"⟩, ⟨5, 10, "5-10 mg"⟩, ⟨10, 15, "10-15 mg"⟩,
   ⟨15, 20, "15-20 mg"⟩, ⟨20, 999, "20+ mg"⟩]

/-- The `timeBuckets` axis of the sweet-spot matrix. -/
def timeBuckets : List TimeOfDay :=
  [.morning, .afternoon, .evening, .night]

/-- JavaScript truthiness of a (possibly absent) numeric field, as tested by
`!log.estimatedMg`: absent, `null` and `0` are falsy. -/
def estTruthy : Option ℚ → Bool
  | none => false
  | some v => decide (v ≠ 0)

/-- The record filter at the top of `computeSweetSpotMatrix`'s population
loop: truthy `estimatedMg`, present `timeOfDay`, present `focusLevel` and
`anxietyLevel`. -/
def qualifiesLog (log : LogRecord) : Bool :=
  estTruthy log.estimatedMg && log.timeOfDay.isSome &&
    log.focusLevel.isSome && log.anxietyLevel.isSome

/-- Embeds `doseBuckets.find(bucket => mg >= bucket.min && mg < bucket.max)`:
the first bucket whose half-open interval contains the dose. -/
def findDoseBucket (mg : ℚ) : Option DoseBucket :=
  doseBuckets.find? (fun b => decide (b.min ≤ mg) && decide (mg < b.max))

/-- The records the population loop of `computeSweetSpotMatrix` pushes into
the cell for bucket `b` × time `t`: those passing the qualification filter
whose dose finds bucket `b` and whose time of day is `t`. -/
def cellLogs (logs : List LogRecord) (b : DoseBucket) (t : TimeOfDay) :
    List LogRecord :=
  logs.filter (fun log =>
    qualifiesLog log &&
      decide (findDoseBucket (log.estimatedMg.getD 0) = some b) &&
      decide (log.timeOfDay = some t))

/-- A computed cell of the sweet-spot matrix. -/
structure Cell where
  avgFocus : ℚ
  avgAnxiety : ℚ
  metric : ℚ
  count : ℕ
deriving DecidableEq

/-- The source's `reduce((a, b) => a + b, 0)`. -/
def sumList (l : List ℚ) : ℚ :=
  l.foldl (fun a b => a + b) 0

/-- The per-cell metric computation of `computeSweetSpotMatrix`: averages of
the pushed focus/anxiety levels and the clamped sweet-spot metric; an empty
cell keeps zeros. -/
def computeCell (logs : List LogRecord) (b : DoseBucket) (t : TimeOfDay) :
    Cell :=
  let cl := cellLogs logs b t
  let focusList := cl.filterMap LogRecord.focusLevel
  let anxietyList := cl.filterMap LogRecord.anxietyLevel
  if 0 < cl.length then
    let avgFocus := sumList focusList / (focusList.length : ℚ)
    let avgAnxiety := sumList anxietyList / (anxietyList.length : ℚ)
    let metric := (avgFocus - avgAnxiety + 9) / 18 * 100
    ⟨avgFocus, avgAnxiety, max 0 (min 100 metric), cl.length⟩
  else ⟨0, 0, 0, 0⟩

/-- Embeds `computeSweetSpotMatrix`: the flat list of cells, one per dose
bucket × time bucket. -/
def computeSweetSpotMatrix (logs : List LogRecord) :
    List (DoseBucket × TimeOfDay × Cell) :=
  (doseBuckets.map (fun b =>
    timeBuckets.map (fun t => (b, t, computeCell logs b t)))).flatten

/-- The result shape of `getDailyStats`. -/
structure DailyStats where
  date : ℤ
  totalMg : ℚ
  eventCount : ℕ
  avgFocus : Option ℚ
  avgAnxiety : Option ℚ
  logs : List LogRecord
deriving DecidableEq

/-- Embeds `getDailyStats` from the charts module: filter by `date`, sum
`estimatedMg` with absent-as-0, presence-filtered averages (null when no
record has the level). -/
def getDailyStats (date : ℤ) (logs : List LogRecord) : DailyStats :=
  let dayLogs := logs.filter (fun log => decide (log.date = date))
  let totalMg := dayLogs.foldl (fun sum log => sum + log.estimatedMg.getD 0) 0
  let focusLevels := dayLogs.filterMap LogRecord.focusLevel
  let anxietyLevels := dayLogs.filterMap LogRecord.anxietyLevel
  { date := date
    totalMg := totalMg
    eventCount := dayLogs.length
    avgFocus :=
      if 0 < focusLevels.length then
        some (sumList focusLevels / (focusLevels.length : ℚ))
      else none
    avgAnxiety :=
      if 0 < anxietyLevels.length then
        some (sumList anxietyLevels / (anxietyLevels.length : ℚ))
      else none
    logs := dayLogs }

/-- The backward walk of `calculateStreak`: while the day is present in the
set of dates with logs, count it and step one calendar day back.  The fuel
argument bounds the walk; `calculateStreak` supplies more fuel than there
can be distinct dates, so it never runs out early. -/
def streakFrom (dates : List ℤ) : ℤ → ℕ → ℕ
  | _, 0 => 0
  | d, fuel + 1 =>
    if d ∈ dates then streakFrom dates (d - 1) fuel + 1 else 0

/-- Embeds `calculateStreak` from the storage module, with today's calendar
day supplied explicitly (the source reads the clock). -/
def calculateStreak (today : ℤ) (logs : List LogRecord) : ℕ :=
  if logs.length = 0 then 0
  else streakFrom (logs.map LogRecord.date) today (logs.length + 1)

/-- A partial update object passed to `updateLog`: a present field (outer
`some`) overwrites the record's field under JavaScript object spread, an
absent field leaves it unchanged. -/
structure Updates where
  id : Option String := none
  timestamp : Option String := none
  date : Option ℤ := none
  timeOfDay : Option (Option TimeOfDay) := none
  source : Option String := none
  unitType : Option String := none
  amount : Option ℚ := none
  estimatedMg : Option (Option ℚ) := none
  reason : Option (Option String) := none
  healthEffects : Option (List String) := none
  focusLevel : Option (Option ℚ) := none
  anxietyLevel : Option (Option ℚ) := none
  clearThinking : Option (Option Bool) := none
  notes : Option (Option String) := none
deriving DecidableEq

/-- The shallow merge `{ ...log, ...updates }` of `updateLog`. -/
def applyUpdates (r : LogRecord) (u : Updates) : LogRecord where
  id := u.id.getD r.id
  timestamp := u.timestamp.getD r.timestamp
  date := u.date.getD r.date
  timeOfDay := u.timeOfDay.getD r.timeOfDay
  source := u.source.getD r.source
  unitType := u.unitType.getD r.unitType
  amount := u.amount.getD r.amount
  estimatedMg := u.estimatedMg.getD r.estimatedMg
  reason := u.reason.getD r.reason
  healthEffects := u.healthEffects.getD r.healthEffects
  focusLevel := u.focusLevel.getD r.focusLevel
  anxietyLevel := u.anxietyLevel.getD r.anxietyLevel
  clearThinking := u.clearThinking.getD r.clearThinking
  notes := u.notes.getD r.notes

/-- Embeds `updateLog` from the storage module: find the first record with
the given id (`findIndex`), shallow-merge the updates into it, and return
the new collection together with the updated record; `none` models the
`Log not found` throw. -/
def updateLog : List LogRecord → String → Updates →
    Option (List LogRecord × LogRecord)
  | [], _, _ => none
  | r :: rest, logId, u =>
    if r.id = logId then
      let merged := applyUpdates r u
      some (merged :: rest, merged)
    else
      match updateLog rest logId u with
      | none => none
      | some (rest2, m) => some (r :: rest2, m)

/-- Embeds `addLog` from the storage module: the new record is the supplied
data with the generated id and timestamp spread over it, appended to the
stored collection. -/
def addLog (s : Store) (logData : LogRecord) (genId genTimestamp : String) :
    Store :=
  { s with
      logs := s.logs ++ [{ logData with id := genId, timestamp := genTimestamp }] }

/-- An imported settings object: only the present keys override. -/
structure SettingsPatch where
  dailyMgLimit : Option ℚ := none
  dailyEventLimit : Option ℚ := none
  morningLimitEnabled : Option Bool := none
  timezoneOffsetMinutes : Option ℤ := none
deriving DecidableEq

/-- The shallow merge `{ ...currentSettings, ...importedData.settings }`. -/
def mergeSettings (cur : Settings) (p : SettingsPatch) : Settings where
  dailyMgLimit := p.dailyMgLimit.getD cur.dailyMgLimit
  dailyEventLimit := p.dailyEventLimit.getD cur.dailyEventLimit
  morningLimitEnabled := p.morningLimitEnabled.getD cur.morningLimitEnabled
  timezoneOffsetMinutes := p.timezoneOffsetMinutes.getD cur.timezoneOffsetMinutes

/-- A parsed import file.  `logs = none` models a missing or non-array
`logs` field (the shapes the validation check rejects); `settings = none`
models an absent/falsy `settings` field (the merge is skipped). -/
structure ImportedData where
  logs : Option (List LogRecord)
  settings : Option SettingsPatch
deriving DecidableEq

/-- Embeds `importData` from the storage module: validation of the `logs`
field, merge-by-id skipping records whose id already exists, optional
shallow settings merge, and the reported count of newly added records.
The returned store is the store after the call (unchanged when the
validation throws, since the throw precedes every save). -/
def importData (s : Store) (d : ImportedData) : Store × Except String ℕ :=
  match d.logs with
  | none => (s, .error "Invalid file format: missing logs array")
  | some importedLogs =>
    let existingIds := s.logs.map LogRecord.id
    let newLogs := importedLogs.filter (fun log => !(existingIds.contains log.id))
    let mergedLogs := s.logs ++ newLogs
    let s1 : Store := { s with logs := mergedLogs }
    let s2 : Store :=
      match d.settings with
      | none => s1
      | some p => { s1 with settings := mergeSettings s1.settings p }
    (s2, .ok newLogs.length)

/-- The store-mutating operations reachable from the UI: append a new
record (with its generated id and timestamp made explicit), amend a record
by id, and import a file. -/
inductive Op
  | append (logData : LogRecord) (genId genTimestamp : String)
  | amend (logId : String) (updates : Updates)
  | importOp (d : ImportedData)

/-- Applies one operation to the store.  A failing amend (id not found)
throws before saving, leaving the store unchanged; a failing import
likewise. -/
def applyOp (s : Store) : Op → Store
  | .append logData genId genTimestamp => addLog s logData genId genTimestamp
  | .amend logId u =>
    match updateLog s.logs logId u with
    | none => s
    | some (newLogs, _) => { s with logs := newLogs }
  | .importOp d => (importData s d).1

/-- Applies a sequence of operations left to right. -/
def applyOps (s : Store) (ops : List Op) : Store :=
  ops.foldl applyOp s

/-- The ids of the stored collection, in storage order. -/
def storeIds (s : Store) : List String :=
  s.logs.map LogRecord.id

/-- Side conditions under which one operation preserves id uniqueness:
an append's generated id is fresh, an amend's updates do not name `id`,
and an import file's records carry pairwise distinct ids. -/
def okOp (s : Store) : Op → Bool
  | .append _ genId _ => !((storeIds s).contains genId)
  | .amend _ u => u.id.isNone
  | .importOp d =>
    match d.logs with
    | none => true
    | some L => decide ((L.map LogRecord.id).Nodup)

/-- The side conditions of `okOp`, threaded along an operation sequence. -/
def okOps : Store → List Op → Bool
  | _, [] => true
  | s, op :: rest => okOp s op && okOps (applyOp s op) rest

/-- A creation instant (`new Date()`), at minute resolution: minutes since
the epoch in UTC, and the `getTimezoneOffset()` value (UTC − local, in
minutes). -/
structure Instant where
  utcMinutes : ℤ
  tzOffsetMinutes : ℤ
deriving DecidableEq

/-- Local minutes since the epoch: local time = UTC time − offset. -/
def Instant.localMinutes (t : Instant) : ℤ :=
  t.utcMinutes - t.tzOffsetMinutes

/-- The UTC calendar day of the instant — the date that
`toISOString().split('T')[0]` yields. -/
def Instant.utcDay (t : Instant) : ℤ :=
  t.utcMinutes.fdiv 1440

/-- The local calendar day of the instant. -/
def Instant.localDay (t : Instant) : ℤ :=
  t.localMinutes.fdiv 1440

/-- The local hour of the instant — what `getHours()` yields. -/
def Instant.localHour (t : Instant) : ℕ :=
  ((t.localMinutes.fdiv 60).emod 24).toNat

/-- The wizard state at confirmation time. -/
structure WizardData where
  source : String
  quantity : ℚ
  strength : ℚ
  estimatedMg : ℚ
  reason : String
  otherReason : String
  healthEffects : List String
deriving DecidableEq

/-- Embeds the record construction of `confirmWizard` in the app
controller: `date` from `toISOString` (the UTC day), `timeOfDay` from
`getTimeOfDay(now)` (the local hour); check-in fields start null.  The id
and timestamp are filled in by `addLog`. -/
def confirmWizardRecord (now : Instant) (w : WizardData) : LogRecord where
  id := ""
  timestamp := ""
  date := now.utcDay
  timeOfDay := some (getTimeOfDay now.localHour)
  source := w.source
  unitType := if w.source = "Vape" then "puffs" else "pieces"
  amount := w.quantity
  estimatedMg := some w.estimatedMg
  reason := some (if w.reason = "Other" then w.otherReason else w.reason)
  healthEffects := w.healthEffects
  focusLevel := none
  anxietyLevel := none
  clearThinking := none
  notes := none

/-- Embeds the check-in-only record construction of
`submitCognitiveCheckIn`: same `date`/`timeOfDay` derivation, source
`None`, zero amount and dose. -/
def checkInRecord (now : Instant) (focus anxiety : ℚ)
    (clearThinking : Option Bool) (notes : Option String) : LogRecord where
  id := ""
  timestamp := ""
  date := now.utcDay
  timeOfDay := some (getTimeOfDay now.localHour)
  source := "None"
  unitType := "other"
  amount := 0
  estimatedMg := some 0
  reason := some "Cognitive check-in only"
  healthEffects := []
  focusLevel := some focus
  anxietyLevel := some anxiety
  clearThinking := clearThinking
  notes := notes

/-- Default settings values, from `DEFAULT_SETTINGS` (the timezone offset
is informational only and taken as 0 in concrete test stores). -/
def defaultSettings : Settings :=
  ⟨40, 5, false, 0⟩

/-- A baseline concrete record used to build test records. -/
def baseRecord : LogRecord where
  id := "r0"
  timestamp := "t0"
  date := 0
  timeOfDay := some .morning
  source := "Snus"
  unitType := "pieces"
  amount := 1
  estimatedMg := some 4
  reason := none
  healthEffects := []
  focusLevel := some 7
  anxietyLevel := some 3
  clearThinking := none
  notes := none

/-- A qualifying record with a very large dose (1000 mg). -/
def bigDoseRecord : LogRecord :=
  { baseRecord with
    id := "big", timeOfDay := some .evening,
    estimatedMg := some 1000, focusLevel := some 8, anxietyLevel := some 2 }

/-- A qualifying record with a dose of exactly 999 mg. -/
def dose999Record : LogRecord :=
  { baseRecord with
    id := "d999", timeOfDay := some .afternoon,
    estimatedMg := some 999, focusLevel := some 6, anxietyLevel := some 4 }

/-- A concrete store holding two records with distinct ids `a` and `b`. -/
def storeAB : Store :=
  ⟨[{ baseRecord with id := "a" }, { baseRecord with id := "b" }],
   defaultSettings⟩

/-- An amend whose field updates include the `id` field. -/
def idStealingUpdates : Updates :=
  { id := some "a", notes := some (some "renamed") }

/-- A concrete instant: 23:30 UTC on day 0, in a UTC+2 timezone
(`getTimezoneOffset() = -120`), where the local calendar day is already
day 1. -/
def lateNightInstant : Instant :=
  ⟨1410, -120⟩

/-- A concrete wizard state. -/
def wizardStress : WizardData where
  source := "Cigarettes"
  quantity := 3
  strength := 2
  estimatedMg := 6
  reason := "Stress"
  otherReason := ""
  healthEffects := ["Alertness"]

/-- A concrete record on day 5 with a focus level but no anxiety level. -/
def dailyLog5 : LogRecord :=
  { baseRecord with
    id := "w6", date := 5, anxietyLevel := none }

/-- Concrete records on days 10, 9 and 7 (today, yesterday, and a gap two
days back when today is day 10). -/
def streakLogs : List LogRecord :=
  [{ baseRecord with id := "s10", date := 10 },
   { baseRecord with id := "s9", date := 9 },
   { baseRecord with id := "s7", date := 7 }]

/-- The spec's own matrix example: 7 mg in the evening, focus 8,
anxiety 2. -/
def eveningLog7 : LogRecord :=
  { baseRecord with
    id := "e7", timeOfDay := some .evening,
    estimatedMg := some 7, focusLevel := some 8, anxietyLevel := some 2 }

/-- A concrete import file: one record whose id `b` already exists in
`storeAB` and one new record with id `c`. -/
def importFileBC : ImportedData :=
  ⟨some [{ baseRecord with id := "b", notes := some "imported" },
         { baseRecord with id := "c" }],
   none⟩

/- ------------------------------------------------------------------ -/
/- Helper lemmas                                                      -/
/- ------------------------------------------------------------------ -/

theorem foldl_add_map {α : Type} (f : α → ℚ) (l : List α) (a : ℚ) :
    l.foldl (fun acc x => acc + f x) a = a + (l.map f).sum := by
  induction l generalizing a with
  | nil => simp
  | cons x xs ih => simp [ih, add_assoc]

theorem sumList_eq_sum (l : List ℚ) : sumList l = l.sum := by
  simpa [sumList] using foldl_add_map (fun x => x) l 0

theorem avg_none_iff (g : LogRecord → Option ℚ) (L : List LogRecord) :
    ((if 0 < (L.filterMap g).length then
        some (sumList (L.filterMap g) / ((L.filterMap g).length : ℚ))
      else none) = none) ↔ ∀ r ∈ L, g r = none := by
  by_cases hl : 0 < (L.filterMap g).length
  · rw [if_pos hl]
    constructor
    · intro h
      exact absurd h (by simp)
    · intro h
      have hnil : L.filterMap g = [] := List.filterMap_eq_nil_iff.mpr h
      rw [hnil] at hl
      simp at hl
  · rw [if_neg hl]
    constructor
    · intro _
      exact List.filterMap_eq_nil_iff.mp
        (List.length_eq_zero.mp (Nat.eq_zero_of_not_pos hl))
    · intro _
      rfl

theorem avg_some_eq (g : LogRecord → Option ℚ) (L : List LogRecord) (q : ℚ) :
    ((if 0 < (L.filterMap g).length then
        some (sumList (L.filterMap g) / ((L.filterMap g).length : ℚ))
      else none) = some q) →
    q = (L.filterMap g).sum / ((L.filterMap g).length : ℚ) := by
  intro h
  split_ifs at h with hl
  rw [Option.some_inj] at h
  rw [← h, sumList_eq_sum]

theorem streakFrom_mem (dates : List ℤ) :
    ∀ (fuel : ℕ) (d : ℤ) (j : ℕ), j < streakFrom dates d fuel →
      (d - (j : ℤ)) ∈ dates := by
  intro fuel
  induction fuel with
  | zero => intro d j hj; simp [streakFrom] at hj
  | succ n ih =>
    intro d j hj
    by_cases hd : d ∈ dates
    · rw [show streakFrom dates d (n + 1)
          = streakFrom dates (d - 1) n + 1 by
        simp only [streakFrom, if_pos hd]] at hj
      match j with
      | 0 => simpa using hd
      | j + 1 =>
        have hrec := ih (d - 1) j (by omega)
        have hcast : d - ((j + 1 : ℕ) : ℤ) = d - 1 - (j : ℤ) := by
          push_cast; ring
        rw [hcast]
        exact hrec
    · rw [show streakFrom dates d (n + 1) = 0 by
        simp only [streakFrom, if_neg hd]] at hj
      omega

theorem streakFrom_stop (dates : List ℤ) :
    ∀ (fuel : ℕ) (d : ℤ), streakFrom dates d fuel < fuel →
      (d - (streakFrom dates d fuel : ℤ)) ∉ dates := by
  intro fuel
  induction fuel with
  | zero => intro d h; omega
  | succ n ih =>
    intro d h
    by_cases hd : d ∈ dates
    · have hs : streakFrom dates d (n + 1)
          = streakFrom dates (d - 1) n + 1 := by
        simp only [streakFrom, if_pos hd]
      rw [hs] at h ⊢
      have hrec := ih (d - 1) (by omega)
      have hcast : d - ((streakFrom dates (d - 1) n + 1 : ℕ) : ℤ)
          = d - 1 - (streakFrom dates (d - 1) n : ℤ) := by
        push_cast; ring
      rw [hcast]
      exact hrec
    · have hs : streakFrom dates d (n + 1) = 0 := by
        simp only [streakFrom, if_neg hd]
      rw [hs]
      simpa using hd

theorem streakFrom_le_length (dates : List ℤ) (d : ℤ) (fuel : ℕ) :
    streakFrom dates d fuel ≤ dates.length := by
  set k := streakFrom dates d fuel with hk
  have hmem : ∀ j : ℕ, j < k → (d - (j : ℤ)) ∈ dates :=
    fun j hj => streakFrom_mem dates fuel d j hj
  have hinj : Function.Injective (fun j : ℕ => d - (j : ℤ)) := by
    intro a b hab
    simp only at hab
    omega
  have hsub : (Finset.range k).image (fun j : ℕ => d - (j : ℤ))
      ⊆ dates.toFinset := by
    intro x hx
    simp only [Finset.mem_image, Finset.mem_range] at hx
    obtain ⟨j, hj, rfl⟩ := hx
    exact List.mem_toFinset.mpr (hmem j hj)
  calc k = ((Finset.range k).image (fun j : ℕ => d - (j : ℤ))).card := by
        rw [Finset.card_image_of_injective _ hinj, Finset.card_range]
    _ ≤ dates.toFinset.card := Finset.card_le_card hsub
    _ ≤ dates.length := List.toFinset_card_le dates

/- ------------------------------------------------------------------ -/
/- Claim theorems                                                     -/
/- ------------------------------------------------------------------ -/

/-- C10: the time-of-day classifier is total on local hours 0–23 and maps
an hour to morning exactly on [5,12), to afternoon exactly on [12,17), to
evening exactly on [17,22), and to night exactly on the remaining hours
(22, 23 and 0 through 4). -/
theorem c10_time_of_day_boundaries (h : ℕ) (hlt : h < 24) :
    (getTimeOfDay h = .morning ↔ 5 ≤ h ∧ h < 12) ∧
    (getTimeOfDay h = .afternoon ↔ 12 ≤ h ∧ h < 17) ∧
    (getTimeOfDay h = .evening ↔ 17 ≤ h ∧ h < 22) ∧
    (getTimeOfDay h = .night ↔ h < 5 ∨ 22 ≤ h) := by
  interval_cases h <;> decide

/-- Witness for C10 at concrete hours. -/
theorem c10_time_of_day_boundaries_witness :
    getTimeOfDay 9 = .morning ∧ getTimeOfDay 23 = .night :=
  ⟨(c10_time_of_day_boundaries 9 (by decide)).1.mpr (by decide),
   (c10_time_of_day_boundaries 23 (by decide)).2.2.2.mpr (by decide)⟩

/-- C3: the estimation function returns 0 whenever quantity ≤ 0 or
strength ≤ 0, for every source; otherwise it returns
`strength / 200 * quantity` for `Vape`, `strength * quantity` for
`Cigarettes` and `Snus`, and 0 for any other source; and it takes the
three stated concrete values. -/
theorem c3_estimate_mg (source : String) (q s : ℚ) :
    ((q ≤ 0 ∨ s ≤ 0) → calculateEstimatedMg source q s = 0) ∧
    (0 < q → 0 < s →
      calculateEstimatedMg "Vape" q s = s / 200 * q ∧
      calculateEstimatedMg "Cigarettes" q s = s * q ∧
      calculateEstimatedMg "Snus" q s = s * q ∧
      (source ≠ "Vape" → source ≠ "Cigarettes" → source ≠ "Snus" →
        calculateEstimatedMg source q s = 0)) ∧
    calculateEstimatedMg "Cigarettes" 3 2 = 6 ∧
    calculateEstimatedMg "Vape" 200 10 = 10 ∧
    calculateEstimatedMg "Snus" 4 (3 / 2) = 6 := by
  refine ⟨?_, ?_, ?_, ?_, ?_⟩
  case refine_3 =>
    unfold calculateEstimatedMg
    rw [if_neg (by norm_num), if_neg (by norm_num), if_neg (by decide),
      if_pos rfl]
    norm_num
  case refine_4 =>
    unfold calculateEstimatedMg
    rw [if_neg (by norm_num), if_neg (by norm_num), if_pos rfl]
    norm_num
  case refine_5 =>
    unfold calculateEstimatedMg
    rw [if_neg (by norm_num), if_neg (by norm_num), if_neg (by decide),
      if_neg (by decide), if_pos rfl]
    norm_num
  · intro hz
    unfold calculateEstimatedMg
    by_cases hq : q ≤ 0
    · rw [if_pos hq]
    · rw [if_neg hq, if_pos (hz.resolve_left hq)]
  · intro hq hs
    have hq0 : ¬ q ≤ 0 := not_le.mpr hq
    have hs0 : ¬ s ≤ 0 := not_le.mpr hs
    refine ⟨?_, ?_, ?_, ?_⟩
    · unfold calculateEstimatedMg
      rw [if_neg hq0, if_neg hs0, if_pos rfl]
    · unfold calculateEstimatedMg
      rw [if_neg hq0, if_neg hs0, if_neg (by decide), if_pos rfl]
    · unfold calculateEstimatedMg
      rw [if_neg hq0, if_neg hs0, if_neg (by decide), if_neg (by decide),
        if_pos rfl]
    · intro h1 h2 h3
      unfold calculateEstimatedMg
      rw [if_neg hq0, if_neg hs0, if_neg h1, if_neg h2, if_neg h3]

/-- Witness for C3 at concrete inputs. -/
theorem c3_estimate_mg_witness :
    calculateEstimatedMg "Chew" 1 (-1) = 0 ∧
    calculateEstimatedMg "Chew" 2 3 = 0 :=
  ⟨(c3_estimate_mg "Chew" 1 (-1)).1 (Or.inr (by norm_num)),
   ((c3_estimate_mg "Chew" 2 3).2.1 (by norm_num) (by norm_num)).2.2.2
     (by decide) (by decide) (by decide)⟩

/-- C6: daily stats for a date filters to records whose `date` matches:
`totalMg` sums `estimatedMg` with absent treated as 0, `eventCount` counts
the matching records, and each average is the mean over matching records
where that level is present, reported as absent (not zero) when no matching
record has the level; with no matching record the result is count 0,
total 0 and both averages absent. -/
theorem c6_daily_stats (date : ℤ) (logs : List LogRecord) :
    (getDailyStats date logs).eventCount
        = (logs.filter (fun r => decide (r.date = date))).length ∧
    (getDailyStats date logs).totalMg
        = ((logs.filter (fun r => decide (r.date = date))).map
            (fun r => r.estimatedMg.getD 0)).sum ∧
    ((getDailyStats date logs).avgFocus = none ↔
      ∀ r ∈ logs.filter (fun r => decide (r.date = date)),
        r.focusLevel = none) ∧
    (∀ q, (getDailyStats date logs).avgFocus = some q →
      q = ((logs.filter (fun r => decide (r.date = date))).filterMap
              LogRecord.focusLevel).sum /
          (((logs.filter (fun r => decide (r.date = date))).filterMap
              LogRecord.focusLevel).length : ℚ)) ∧
    ((getDailyStats date logs).avgAnxiety = none ↔
      ∀ r ∈ logs.filter (fun r => decide (r.date = date)),
        r.anxietyLevel = none) ∧
    (∀ q, (getDailyStats date logs).avgAnxiety = some q →
      q = ((logs.filter (fun r => decide (r.date = date))).filterMap
              LogRecord.anxietyLevel).sum /
          (((logs.filter (fun r => decide (r.date = date))).filterMap
              LogRecord.anxietyLevel).length : ℚ)) ∧
    (logs.filter (fun r => decide (r.date = date)) = [] →
      (getDailyStats date logs).eventCount = 0 ∧
      (getDailyStats date logs).totalMg = 0 ∧
      (getDailyStats date logs).avgFocus = none ∧
      (getDailyStats date logs).avgAnxiety = none) := by
  refine ⟨rfl, ?_, ?_, ?_, ?_, ?_, ?_⟩
  · exact ((foldl_add_map (fun r => r.estimatedMg.getD 0)
      (logs.filter (fun r => decide (r.date = date))) 0).trans
        (zero_add _))
  · exact avg_none_iff LogRecord.focusLevel
      (logs.filter (fun r => decide (r.date = date)))
  · exact fun q => avg_some_eq LogRecord.focusLevel
      (logs.filter (fun r => decide (r.date = date))) q
  · exact avg_none_iff LogRecord.anxietyLevel
      (logs.filter (fun r => decide (r.date = date)))
  · exact fun q => avg_some_eq LogRecord.anxietyLevel
      (logs.filter (fun r => decide (r.date = date))) q
  · intro h
    refine ⟨?_, ?_, ?_, ?_⟩
    · show (logs.filter (fun r => decide (r.date = date))).length = 0
      rw [h]; rfl
    · show (logs.filter (fun r => decide (r.date = date))).foldl
        (fun sum log => sum + log.estimatedMg.getD 0) 0 = 0
      rw [h]; rfl
    · exact (avg_none_iff LogRecord.focusLevel _).mpr
        (by rw [h]; intro r hr; cases hr)
    · exact (avg_none_iff LogRecord.anxietyLevel _).mpr
        (by rw [h]; intro r hr; cases hr)

/-- Witness for C6 on a one-record collection whose record has a focus
level but no anxiety level. -/
theorem c6_daily_stats_witness :
    (getDailyStats 5 [dailyLog5]).eventCount = 1 ∧
    (getDailyStats 5 [dailyLog5]).avgAnxiety = none :=
  ⟨(c6_daily_stats 5 [dailyLog5]).1.trans (by decide),
   (c6_daily_stats 5 [dailyLog5]).2.2.2.2.1.mpr (by decide)⟩

/-- C7: the streak is the length of the maximal run of consecutive
calendar days ending at today, walking backward, each day having at least
one record with that date; in particular no record today gives streak 0,
and records today and yesterday but not two days ago give streak 2. -/
theorem c7_streak (today : ℤ) (logs : List LogRecord) :
    (∀ j : ℕ, j < calculateStreak today logs →
      (today - (j : ℤ)) ∈ logs.map LogRecord.date) ∧
    (today - (calculateStreak today logs : ℤ)) ∉ logs.map LogRecord.date ∧
    (today ∉ logs.map LogRecord.date → calculateStreak today logs = 0) ∧
    (today ∈ logs.map LogRecord.date →
      (today - 1) ∈ logs.map LogRecord.date →
      (today - 2) ∉ logs.map LogRecord.date →
      calculateStreak today logs = 2) := by
  by_cases hnil : logs.length = 0
  · have hl : logs = [] := List.length_eq_zero.mp hnil
    subst hl
    simp [calculateStreak]
  · have hstreak : calculateStreak today logs
        = streakFrom (logs.map LogRecord.date) today (logs.length + 1) := by
      simp only [calculateStreak, if_neg hnil]
    have hlt : streakFrom (logs.map LogRecord.date) today (logs.length + 1)
        < logs.length + 1 := by
      have hb := streakFrom_le_length (logs.map LogRecord.date) today
        (logs.length + 1)
      simp only [List.length_map] at hb
      omega
    have hm : ∀ j : ℕ, j < calculateStreak today logs →
        (today - (j : ℤ)) ∈ logs.map LogRecord.date := by
      rw [hstreak]
      exact fun j hj => streakFrom_mem _ _ _ _ hj
    have hs : (today - (calculateStreak today logs : ℤ))
        ∉ logs.map LogRecord.date := by
      rw [hstreak]
      exact streakFrom_stop _ _ _ hlt
    refine ⟨hm, hs, ?_, ?_⟩
    · intro htoday
      by_contra hne
      have hpos : 0 < calculateStreak today logs := Nat.pos_of_ne_zero hne
      have h0 := hm 0 hpos
      simp only [Nat.cast_zero, sub_zero] at h0
      exact htoday h0
    · intro h0 h1 h2
      have k0 : calculateStreak today logs ≠ 0 := by
        intro hz
        rw [hz] at hs
        simp only [Nat.cast_zero, sub_zero] at hs
        exact hs h0
      have k1 : calculateStreak today logs ≠ 1 := by
        intro hz
        rw [hz] at hs
        simp only [Nat.cast_one] at hs
        exact hs h1
      have k3 : ¬ 2 < calculateStreak today logs := by
        intro hgt
        have := hm 2 hgt
        simp only [Nat.cast_ofNat] at this
        exact h2 this
      omega

/-- Witness for C7: records on days 10, 9 and 7 give streak 2 on day 10. -/
theorem c7_streak_witness : calculateStreak 10 streakLogs = 2 :=
  (c7_streak 10 streakLogs).2.2.2 (by decide) (by decide) (by decide)

theorem updateLog_eq_none_iff (logId : String) (u : Updates) :
    ∀ logs : List LogRecord,
      updateLog logs logId u = none ↔ ∀ r ∈ logs, r.id ≠ logId := by
  intro logs
  induction logs with
  | nil => simp [updateLog]
  | cons r rest ih =>
    by_cases hr : r.id = logId
    · simp only [updateLog, if_pos hr]
      constructor
      · intro h
        exact absurd h (by simp)
      · intro h
        exact absurd hr (h r (by simp))
    · simp only [updateLog, if_neg hr]
      cases hrec : updateLog rest logId u with
      | none =>
        constructor
        · intro _
          intro x hx
          rcases List.mem_cons.mp hx with h1 | h1
          · rw [h1]; exact hr
          · exact (ih.mp hrec) x h1
        · intro _
          rfl
      | some p =>
        obtain ⟨rest2, m⟩ := p
        constructor
        · intro h
          exact absurd h (by simp)
        · intro hall
          have : updateLog rest logId u = none :=
            ih.mpr (fun x hx => hall x (List.mem_cons_of_mem r hx))
          rw [this] at hrec
          cases hrec

theorem updateLog_found (logId : String) (u : Updates) (r : LogRecord)
    (hr : r.id = logId) :
    ∀ (pre post : List LogRecord), (∀ x ∈ pre, x.id ≠ logId) →
      updateLog (pre ++ r :: post) logId u
        = some (pre ++ applyUpdates r u :: post, applyUpdates r u) := by
  intro pre
  induction pre with
  | nil =>
    intro post _
    simp [updateLog, hr]
  | cons x xs ih =>
    intro post hpre
    have hx : x.id ≠ logId := hpre x (by simp)
    simp only [List.cons_append, updateLog, if_neg hx, List.append_eq]
    rw [ih post (fun y hy => hpre y (List.mem_cons_of_mem x hy))]

theorem updateLog_map_id (logId : String) (u : Updates) (hid : u.id = none) :
    ∀ (logs l2 : List LogRecord) (m : LogRecord),
      updateLog logs logId u = some (l2, m) →
      l2.map LogRecord.id = logs.map LogRecord.id ∧ m.id = logId := by
  intro logs
  induction logs with
  | nil => intro l2 m h; cases h
  | cons r rest ih =>
    intro l2 m h
    by_cases hr : r.id = logId
    · simp only [updateLog, if_pos hr] at h
      rw [Option.some_inj, Prod.mk.injEq] at h
      obtain ⟨h1, h2⟩ := h
      subst h1
      subst h2
      constructor
      · simp [applyUpdates, hid]
      · simp [applyUpdates, hid, hr]
    · simp only [updateLog, if_neg hr] at h
      cases hrec : updateLog rest logId u with
      | none =>
        rw [hrec] at h
        cases h
      | some p =>
        obtain ⟨rest2, m2⟩ := p
        rw [hrec] at h
        rw [Option.some_inj, Prod.mk.injEq] at h
        obtain ⟨h1, h2⟩ := h
        subst h1
        subst h2
        obtain ⟨ha, hb⟩ := ih rest2 m2 hrec
        exact ⟨by simp [List.map_cons, ha], hb⟩

/-- C8: amend with an absent id fails (Log not found) and leaves the store
unchanged; amend with a present id shallow-merges the updates into the
first record carrying that id, leaves every other record untouched,
persists, and returns the updated record; fields not named in the updates
keep their values. -/
theorem c8_amend (s : Store) (logId : String) (u : Updates) :
    ((∀ r ∈ s.logs, r.id ≠ logId) →
      updateLog s.logs logId u = none ∧ applyOp s (.amend logId u) = s) ∧
    (∀ (pre : List LogRecord) (r : LogRecord) (post : List LogRecord),
      s.logs = pre ++ r :: post → (∀ x ∈ pre, x.id ≠ logId) →
      r.id = logId →
      updateLog s.logs logId u
          = some (pre ++ applyUpdates r u :: post, applyUpdates r u) ∧
      (applyOp s (.amend logId u)).logs = pre ++ applyUpdates r u :: post) ∧
    (∀ r : LogRecord,
      (u.id = none → (applyUpdates r u).id = r.id) ∧
      (u.timestamp = none → (applyUpdates r u).timestamp = r.timestamp) ∧
      (u.date = none → (applyUpdates r u).date = r.date) ∧
      (u.timeOfDay = none → (applyUpdates r u).timeOfDay = r.timeOfDay) ∧
      (u.source = none → (applyUpdates r u).source = r.source) ∧
      (u.unitType = none → (applyUpdates r u).unitType = r.unitType) ∧
      (u.amount = none → (applyUpdates r u).amount = r.amount) ∧
      (u.estimatedMg = none → (applyUpdates r u).estimatedMg = r.estimatedMg) ∧
      (u.reason = none → (applyUpdates r u).reason = r.reason) ∧
      (u.healthEffects = none →
        (applyUpdates r u).healthEffects = r.healthEffects) ∧
      (u.focusLevel = none → (applyUpdates r u).focusLevel = r.focusLevel) ∧
      (u.anxietyLevel = none →
        (applyUpdates r u).anxietyLevel = r.anxietyLevel) ∧
      (u.clearThinking = none →
        (applyUpdates r u).clearThinking = r.clearThinking) ∧
      (u.notes = none → (applyUpdates r u).notes = r.notes)) := by
  refine ⟨?_, ?_, ?_⟩
  · intro h
    have hnone : updateLog s.logs logId u = none :=
      (updateLog_eq_none_iff logId u s.logs).mpr h
    refine ⟨hnone, ?_⟩
    simp [applyOp, hnone]
  · intro pre r post hsplit hpre hr
    have hfound := updateLog_found logId u r hr pre post hpre
    rw [← hsplit] at hfound
    refine ⟨hfound, ?_⟩
    simp [applyOp, hfound]
  · intro r
    refine ⟨?_, ?_, ?_, ?_, ?_, ?_, ?_, ?_, ?_, ?_, ?_, ?_, ?_, ?_⟩ <;>
      (intro h; simp [applyUpdates, h])

/-- Witness for C8: amending a missing id on a two-record store fails and
leaves the store unchanged; amending id `b` merges the update into that
record. -/
theorem c8_amend_witness :
    (updateLog storeAB.logs "zzz" { notes := some (some "x") } = none ∧
      applyOp storeAB (.amend "zzz" { notes := some (some "x") }) = storeAB) ∧
    (applyOp storeAB (.amend "b" { notes := some (some "x") })).logs
      = [{ baseRecord with id := "a" },
         applyUpdates { baseRecord with id := "b" } { notes := some (some "x") }] :=
  ⟨(c8_amend storeAB "zzz" { notes := some (some "x") }).1 (by decide),
   ((c8_amend storeAB "b" { notes := some (some "x") }).2.1
      [{ baseRecord with id := "a" }] { baseRecord with id := "b" } []
      rfl (by decide) rfl).2⟩

theorem filter_not_contains_eq (ids : List String) (L : List LogRecord) :
    L.filter (fun r => !(ids.contains r.id))
      = L.filter (fun r => decide (r.id ∉ ids)) := by
  apply List.filter_congr
  intro r _
  simp [List.elem_iff]

/-- C4: import with a missing/non-array `logs` field fails with a
validation error and leaves logs and settings unchanged; with a valid
file it appends exactly the records whose ids are not already present
(existing ids are skipped, never overwritten), shallow-merges provided
settings, and reports the count of newly appended records. -/
theorem c4_import (s : Store) (d : ImportedData) :
    (d.logs = none →
      (importData s d).1 = s ∧
      ∃ e, (importData s d).2 = Except.error e) ∧
    (∀ L, d.logs = some L →
      (importData s d).1.logs
          = s.logs ++ L.filter (fun r => decide (r.id ∉ s.logs.map LogRecord.id)) ∧
      (importData s d).2
          = Except.ok (L.filter
              (fun r => decide (r.id ∉ s.logs.map LogRecord.id))).length ∧
      (d.settings = none → (importData s d).1.settings = s.settings) ∧
      (∀ p, d.settings = some p →
        (importData s d).1.settings = mergeSettings s.settings p)) := by
  constructor
  · intro h
    simp [importData, h]
  · intro L hL
    have hfilter := filter_not_contains_eq (s.logs.map LogRecord.id) L
    refine ⟨?_, ?_, ?_, ?_⟩
    · show (importData s d).1.logs = _
      rw [← hfilter]
      cases hset : d.settings <;> simp [importData, hL, hset]
    · rw [← hfilter]
      simp [importData, hL]
    · intro hset
      simp [importData, hL, hset]
    · intro p hset
      simp [importData, hL, hset]

/-- Witness for C4: importing a file sharing id `b` with the store and
adding id `c` appends one record and reports a count of 1. -/
theorem c4_import_witness :
    (importData storeAB importFileBC).2 = Except.ok 1 ∧
    (importData storeAB importFileBC).1.logs.length = 3 :=
  ⟨(((c4_import storeAB importFileBC).2 _ rfl).2.1).trans
      (congrArg Except.ok (by decide)),
   by
     rw [((c4_import storeAB importFileBC).2 _ rfl).1]
     decide⟩

theorem applyOp_nodup (s : Store) (op : Op)
    (hnd : (storeIds s).Nodup) (hok : okOp s op = true) :
    (storeIds (applyOp s op)).Nodup := by
  cases op with
  | append logData genId ts =>
    have hgen : genId ∉ storeIds s := by
      intro hmem
      simp only [okOp, Bool.not_eq_true', List.contains] at hok
      have htrue := List.elem_iff.mpr hmem
      rw [hok] at htrue
      cases htrue
    have : storeIds (applyOp s (.append logData genId ts))
        = storeIds s ++ [genId] := by
      simp [applyOp, addLog, storeIds]
    rw [this, List.nodup_append]
    refine ⟨hnd, List.nodup_singleton _, ?_⟩
    intro a ha hb
    rw [List.mem_singleton.mp hb] at ha
    exact hgen ha
  | amend logId u =>
    have hid : u.id = none := Option.isNone_iff_eq_none.mp hok
    cases hu : updateLog s.logs logId u with
    | none =>
      simpa [applyOp, hu] using hnd
    | some p =>
      obtain ⟨l2, m⟩ := p
      have hmap := (updateLog_map_id logId u hid s.logs l2 m hu).1
      have : storeIds (applyOp s (.amend logId u)) = l2.map LogRecord.id := by
        simp [applyOp, hu, storeIds]
      rw [this, hmap]
      exact hnd
  | importOp d =>
    cases hd : d.logs with
    | none =>
      simpa [applyOp, importData, hd] using hnd
    | some L =>
      have hLnd : (L.map LogRecord.id).Nodup := by
        simpa [okOp, hd] using hok
      have hres : storeIds (applyOp s (.importOp d))
          = s.logs.map LogRecord.id
            ++ (L.filter
                (fun r => !((s.logs.map LogRecord.id).contains r.id))).map
                  LogRecord.id := by
        cases hset : d.settings <;>
          simp [applyOp, importData, hd, hset, storeIds]
      rw [hres, List.nodup_append]
      refine ⟨hnd, ?_, ?_⟩
      · exact ((List.filter_sublist L).map LogRecord.id).nodup hLnd
      · intro a ha hb
        simp only [List.mem_map] at hb
        obtain ⟨r, hrmem, rfl⟩ := hb
        have hpred := (List.mem_filter.mp hrmem).2
        simp only [Bool.not_eq_true', List.contains] at hpred
        have htrue := List.elem_iff.mpr ha
        rw [hpred] at htrue
        cases htrue

theorem applyOps_nodup : ∀ (ops : List Op) (s : Store),
    (storeIds s).Nodup → okOps s ops = true →
    (storeIds (applyOps s ops)).Nodup := by
  intro ops
  induction ops with
  | nil =>
    intro s h _
    simpa [applyOps] using h
  | cons op rest ih =>
    intro s h hok
    simp only [okOps, Bool.and_eq_true] at hok
    have h1 := applyOp_nodup s op h hok.1
    simpa [applyOps] using ih (applyOp s op) h1 hok.2

/-- C5 (amended): id uniqueness is preserved by every sequence of append,
amend and import operations provided each append's generated id is fresh,
each amend's field updates do not name `id`, and each imported file's
records carry pairwise distinct ids; and an amend whose updates do not
name `id` changes no stored id and returns a record keeping the target
id. -/
theorem c5_id_uniqueness (s : Store) (ops : List Op) :
    ((storeIds s).Nodup → okOps s ops = true →
      (storeIds (applyOps s ops)).Nodup) ∧
    (∀ (logs l2 : List LogRecord) (logId : String) (u : Updates)
        (m : LogRecord), u.id = none →
      updateLog logs logId u = some (l2, m) →
      l2.map LogRecord.id = logs.map LogRecord.id ∧ m.id = logId) :=
  ⟨fun h hok => applyOps_nodup ops s h hok,
   fun logs l2 logId u m hid hu => updateLog_map_id logId u hid logs l2 m hu⟩

/-- Witness for C5 on a concrete operation sequence: an append with a
fresh id, an amend not naming `id`, and an import with distinct ids keep
the store's ids unique. -/
theorem c5_id_uniqueness_witness :
    (storeIds (applyOps storeAB
      [Op.append baseRecord "c" "t1",
       Op.amend "b" { notes := some (some "x") },
       Op.importOp importFileBC])).Nodup :=
  (c5_id_uniqueness storeAB
    [Op.append baseRecord "c" "t1",
     Op.amend "b" { notes := some (some "x") },
     Op.importOp importFileBC]).1 (by decide) (by decide)

/-- C5 as stated is false on the code: starting from a store with unique
ids `a` and `b`, a single amend whose arbitrary field updates include
`id := "a"` renames record `b`, leaving two records sharing id `a`. -/
theorem c5_counterexample :
    (storeIds storeAB).Nodup ∧
    storeIds (applyOp storeAB (.amend "b" idStealingUpdates)) = ["a", "a"] ∧
    ¬ (storeIds (applyOp storeAB (.amend "b" idStealingUpdates))).Nodup := by
  exact ⟨by decide, by decide, by decide⟩

/-- C9 (amended): every record created by the wizard or by a check-in-only
entry stores `date` equal to the UTC calendar day of the creation instant
(the `toISOString` date) and `timeOfDay` derived from the local hour of
the creation instant; `addLog` stores these fields as given, and an amend
whose updates do not name them leaves them unchanged — they are computed
once at creation, never recomputed from the timestamp. -/
theorem c9_frozen_dates (now : Instant) (w : WizardData) (f a : ℚ)
    (c : Option Bool) (n : Option String) :
    (confirmWizardRecord now w).date = now.utcDay ∧
    (confirmWizardRecord now w).timeOfDay
        = some (getTimeOfDay now.localHour) ∧
    (checkInRecord now f a c n).date = now.utcDay ∧
    (checkInRecord now f a c n).timeOfDay
        = some (getTimeOfDay now.localHour) ∧
    (∀ (s : Store) (logData : LogRecord) (genId ts : String),
      (addLog s logData genId ts).logs.map LogRecord.date
          = s.logs.map LogRecord.date ++ [logData.date] ∧
      (addLog s logData genId ts).logs.map LogRecord.timeOfDay
          = s.logs.map LogRecord.timeOfDay ++ [logData.timeOfDay]) ∧
    (∀ (r : LogRecord) (u : Updates), u.date = none → u.timeOfDay = none →
      (applyUpdates r u).date = r.date ∧
      (applyUpdates r u).timeOfDay = r.timeOfDay) := by
  refine ⟨rfl, rfl, rfl, rfl, ?_, ?_⟩
  · intro s logData genId ts
    constructor <;> simp [addLog]
  · intro r u hd ht
    constructor
    · simp [applyUpdates, hd]
    · simp [applyUpdates, ht]

/-- Witness for C9 at a concrete instant and concrete update. -/
theorem c9_frozen_dates_witness :
    (confirmWizardRecord lateNightInstant wizardStress).date = 0 ∧
    (applyUpdates baseRecord { notes := some (some "x") }).date
      = baseRecord.date :=
  ⟨((c9_frozen_dates lateNightInstant wizardStress 0 0 none none).1).trans
      (by decide),
   ((c9_frozen_dates lateNightInstant wizardStress 0 0 none none).2.2.2.2.2
      baseRecord { notes := some (some "x") } rfl rfl).1⟩

/-- C9 as stated is false on the code: at 23:30 UTC of day 0 in a UTC+2
timezone the local calendar day is already day 1, but the created record's
`date` is the UTC day 0 (`toISOString` is UTC, not local). -/
theorem c9_counterexample :
    Instant.localDay lateNightInstant = 1 ∧
    (confirmWizardRecord lateNightInstant wizardStress).date = 0 ∧
    (confirmWizardRecord lateNightInstant wizardStress).date
      ≠ Instant.localDay lateNightInstant := by
  exact ⟨by decide, by decide, by decide⟩

theorem findDoseBucket_some_sat {v : ℚ} {b : DoseBucket}
    (h : findDoseBucket v = some b) : b.min ≤ v ∧ v < b.max := by
  have := List.find?_some h
  simpa using this

theorem findDoseBucket_eq_of_sat {v : ℚ} {b : DoseBucket}
    (hb : b ∈ doseBuckets) (h1 : b.min ≤ v) (h2 : v < b.max) :
    findDoseBucket v = some b := by
  simp only [doseBuckets, List.mem_cons, List.not_mem_nil, or_false] at hb
  rcases hb with rfl | rfl | rfl | rfl | rfl
  · have h1a : (0 : ℚ) ≤ v := h1
    have h2a : v < 5 := h2
    unfold findDoseBucket doseBuckets
    exact List.find?_cons_of_pos _
      (by simp only [Bool.and_eq_true, decide_eq_true_eq]; exact ⟨h1a, h2a⟩)
  · have h1a : (5 : ℚ) ≤ v := h1
    have h2a : v < 10 := h2
    unfold findDoseBucket doseBuckets
    rw [List.find?_cons_of_neg _ (by
      simp only [Bool.and_eq_true, decide_eq_true_eq, not_and]
      intro _
      intro hlt
      linarith)]
    exact List.find?_cons_of_pos _
      (by simp only [Bool.and_eq_true, decide_eq_true_eq]; exact ⟨h1a, h2a⟩)
  · have h1a : (10 : ℚ) ≤ v := h1
    have h2a : v < 15 := h2
    unfold findDoseBucket doseBuckets
    rw [List.find?_cons_of_neg _ (by
      simp only [Bool.and_eq_true, decide_eq_true_eq, not_and]
      intro _ hlt
      linarith)]
    rw [List.find?_cons_of_neg _ (by
      simp only [Bool.and_eq_true, decide_eq_true_eq, not_and]
      intro _ hlt
      linarith)]
    exact List.find?_cons_of_pos _
      (by simp only [Bool.and_eq_true, decide_eq_true_eq]; exact ⟨h1a, h2a⟩)
  · have h1a : (15 : ℚ) ≤ v := h1
    have h2a : v < 20 := h2
    unfold findDoseBucket doseBuckets
    rw [List.find?_cons_of_neg _ (by
      simp only [Bool.and_eq_true, decide_eq_true_eq, not_and]
      intro _ hlt
      linarith)]
    rw [List.find?_cons_of_neg _ (by
      simp only [Bool.and_eq_true, decide_eq_true_eq, not_and]
      intro _ hlt
      linarith)]
    rw [List.find?_cons_of_neg _ (by
      simp only [Bool.and_eq_true, decide_eq_true_eq, not_and]
      intro _ hlt
      linarith)]
    exact List.find?_cons_of_pos _
      (by simp only [Bool.and_eq_true, decide_eq_true_eq]; exact ⟨h1a, h2a⟩)
  · have h1a : (20 : ℚ) ≤ v := h1
    have h2a : v < 999 := h2
    unfold findDoseBucket doseBuckets
    rw [List.find?_cons_of_neg _ (by
      simp only [Bool.and_eq_true, decide_eq_true_eq, not_and]
      intro _ hlt
      linarith)]
    rw [List.find?_cons_of_neg _ (by
      simp only [Bool.and_eq_true, decide_eq_true_eq, not_and]
      intro _ hlt
      linarith)]
    rw [List.find?_cons_of_neg _ (by
      simp only [Bool.and_eq_true, decide_eq_true_eq, not_and]
      intro _ hlt
      linarith)]
    rw [List.find?_cons_of_neg _ (by
      simp only [Bool.and_eq_true, decide_eq_true_eq, not_and]
      intro _ hlt
      linarith)]
    exact List.find?_cons_of_pos _
      (by simp only [Bool.and_eq_true, decide_eq_true_eq]; exact ⟨h1a, h2a⟩)

theorem bucket_bounds : ∀ b ∈ doseBuckets, 0 ≤ b.min ∧ b.max ≤ 999 := by
  decide

theorem findDoseBucket_covers {v : ℚ} (h0 : 0 ≤ v) (h999 : v < 999) :
    ∃ b ∈ doseBuckets, findDoseBucket v = some b := by
  rcases lt_or_le v 5 with h5 | h5
  · exact ⟨⟨0, 5, "0-5 mg"⟩, by decide,
      findDoseBucket_eq_of_sat (by decide) h0 h5⟩
  rcases lt_or_le v 10 with h10 | h10
  · exact ⟨⟨5, 10, "5-10 mg"⟩, by decide,
      findDoseBucket_eq_of_sat (by decide) h5 h10⟩
  rcases lt_or_le v 15 with h15 | h15
  · exact ⟨⟨10, 15, "10-15 mg"⟩, by decide,
      findDoseBucket_eq_of_sat (by decide) h10 h15⟩
  rcases lt_or_le v 20 with h20 | h20
  · exact ⟨⟨15, 20, "15-20 mg"⟩, by decide,
      findDoseBucket_eq_of_sat (by decide) h15 h20⟩
  · exact ⟨⟨20, 999, "20+ mg"⟩, by decide,
      findDoseBucket_eq_of_sat (by decide) h20 h999⟩

theorem mem_timeBuckets (t : TimeOfDay) : t ∈ timeBuckets := by
  cases t <;> decide

theorem mem_cellLogs_iff {logs : List LogRecord} {log : LogRecord}
    {b : DoseBucket} {t : TimeOfDay} :
    log ∈ cellLogs logs b t ↔
      log ∈ logs ∧ qualifiesLog log = true ∧
      findDoseBucket (log.estimatedMg.getD 0) = some b ∧
      log.timeOfDay = some t := by
  simp [cellLogs, List.mem_filter, and_assoc]

/-- C1 (amended): a qualifying record (present nonzero `estimatedMg`,
a time of day, both levels present) is counted in the cell of a dose
bucket exactly when the bucket's half-open interval `[min, max)` contains
its dose — the buckets being `[0,5)`, `[5,10)`, `[10,15)`, `[15,20)` and
`[20,999)` (the source's last bucket tops out at the literal 999, not ∞)
— and never in a cell of a different time of day. -/
theorem c1_dose_buckets (logs : List LogRecord) (log : LogRecord) (v : ℚ)
    (t : TimeOfDay) (hv : log.estimatedMg = some v) (hv0 : v ≠ 0)
    (ht : log.timeOfDay = some t) (hf : log.focusLevel.isSome = true)
    (ha : log.anxietyLevel.isSome = true) :
    ∀ b ∈ doseBuckets,
      (log ∈ cellLogs logs b t ↔ log ∈ logs ∧ b.min ≤ v ∧ v < b.max) ∧
      ∀ t2 : TimeOfDay, t2 ≠ t → log ∉ cellLogs logs b t2 := by
  intro b hb
  have hq : qualifiesLog log = true := by
    simp [qualifiesLog, estTruthy, hv, hv0, ht, hf, ha]
  have hgd : log.estimatedMg.getD 0 = v := by rw [hv]; rfl
  constructor
  · constructor
    · intro hmem
      obtain ⟨hlogs, _, hfind, _⟩ := mem_cellLogs_iff.mp hmem
      rw [hgd] at hfind
      exact ⟨hlogs, findDoseBucket_some_sat hfind⟩
    · rintro ⟨hlogs, h1, h2⟩
      exact mem_cellLogs_iff.mpr ⟨hlogs, hq,
        by rw [hgd]; exact findDoseBucket_eq_of_sat hb h1 h2, ht⟩
  · intro t2 hne hmem
    obtain ⟨_, _, _, ht2⟩ := mem_cellLogs_iff.mp hmem
    rw [ht] at ht2
    exact hne (Option.some_inj.mp ht2).symm

/-- Witness for C1: the spec's example record (7 mg, evening, focus 8,
anxiety 2) lands in the `5-10 mg` × evening cell. -/
theorem c1_dose_buckets_witness :
    eveningLog7 ∈ cellLogs [eveningLog7] ⟨5, 10, "5-10 mg"⟩ .evening :=
  ((c1_dose_buckets [eveningLog7] eveningLog7 7 .evening rfl (by decide)
      rfl rfl rfl) ⟨5, 10, "5-10 mg"⟩ (by decide)).1.mpr
    ⟨by decide, by decide, by decide⟩

/-- C1 as stated is false on the code: a qualifying record with
`estimatedMg = 1000 ≥ 20` is counted in no cell at all — in particular not
in the `20+ mg` row — because the last bucket's interval is `[20, 999)`. -/
theorem c1_counterexample :
    qualifiesLog bigDoseRecord = true ∧
    bigDoseRecord.estimatedMg = some 1000 ∧
    (20 : ℚ) ≤ 1000 ∧
    ∀ b ∈ doseBuckets, ∀ t ∈ timeBuckets,
      bigDoseRecord ∉ cellLogs [bigDoseRecord] b t := by
  exact ⟨by decide, rfl, by decide, by decide⟩

/-- C2 (amended): a record contributes to the sweet-spot grid exactly when
it has a present `estimatedMg` strictly between 0 and 999, a time of day,
and both levels present (truthiness excludes a zero dose; the bucket table
drops doses of 999 mg and above); every populated cell reports the simple
means of the contributing levels and the clamped metric
`max 0 (min 100 ((avgFocus − avgAnxiety + 9) / 18 × 100))`, while an empty
cell reports count 0 and a zero metric. -/
theorem c2_matrix_cells (logs : List LogRecord) :
    (∀ log ∈ logs,
      ((∃ b ∈ doseBuckets, ∃ t ∈ timeBuckets, log ∈ cellLogs logs b t) ↔
        ((∃ v, log.estimatedMg = some v ∧ 0 < v ∧ v < 999) ∧
          log.timeOfDay.isSome = true ∧ log.focusLevel.isSome = true ∧
          log.anxietyLevel.isSome = true))) ∧
    (∀ (b : DoseBucket) (t : TimeOfDay),
      (computeCell logs b t).count = (cellLogs logs b t).length ∧
      (0 < (cellLogs logs b t).length →
        (computeCell logs b t).avgFocus
            = ((cellLogs logs b t).filterMap LogRecord.focusLevel).sum
              / (((cellLogs logs b t).filterMap
                    LogRecord.focusLevel).length : ℚ) ∧
        (computeCell logs b t).avgAnxiety
            = ((cellLogs logs b t).filterMap LogRecord.anxietyLevel).sum
              / (((cellLogs logs b t).filterMap
                    LogRecord.anxietyLevel).length : ℚ) ∧
        (computeCell logs b t).metric
            = max 0 (min 100 (((computeCell logs b t).avgFocus
                - (computeCell logs b t).avgAnxiety + 9) / 18 * 100))) ∧
      ((cellLogs logs b t).length = 0 →
        (computeCell logs b t).count = 0 ∧
        (computeCell logs b t).metric = 0)) := by
  constructor
  · intro log hlog
    constructor
    · rintro ⟨b, hb, t, ht, hmem⟩
      obtain ⟨_, hq, hfind, _⟩ := mem_cellLogs_iff.mp hmem
      simp only [qualifiesLog, Bool.and_eq_true] at hq
      obtain ⟨⟨⟨hest, htods⟩, hfs⟩, has⟩ := hq
      cases hv : log.estimatedMg with
      | none =>
        rw [hv] at hest
        cases hest
      | some v =>
        rw [hv] at hfind hest
        simp only [estTruthy, decide_eq_true_eq] at hest
        have hsat := findDoseBucket_some_sat hfind
        have hbnd := bucket_bounds b hb
        refine ⟨⟨v, rfl, ?_, ?_⟩, htods, hfs, has⟩
        · rcases lt_or_le 0 v with hpos | hneg
          · exact hpos
          · exact absurd (le_antisymm hneg
              (le_trans hbnd.1 hsat.1)) hest
        · exact lt_of_lt_of_le hsat.2 hbnd.2
    · rintro ⟨⟨v, hv, hv0, hv999⟩, htods, hfs, has⟩
      obtain ⟨t, ht⟩ := Option.isSome_iff_exists.mp htods
      obtain ⟨b, hb, hfind⟩ := findDoseBucket_covers (le_of_lt hv0) hv999
      refine ⟨b, hb, t, mem_timeBuckets t,
        mem_cellLogs_iff.mpr ⟨hlog, ?_, ?_, ht⟩⟩
      · simp [qualifiesLog, estTruthy, hv, ne_of_gt hv0, ht, hfs, has]
      · rw [hv]
        exact hfind
  · intro b t
    by_cases hc : 0 < (cellLogs logs b t).length
    · refine ⟨?_, fun _ => ⟨?_, ?_, ?_⟩, fun h0 => absurd h0 (by omega)⟩
      · simp only [computeCell, if_pos hc]
      · simp only [computeCell, if_pos hc, sumList_eq_sum]
      · simp only [computeCell, if_pos hc, sumList_eq_sum]
      · simp only [computeCell, if_pos hc]
    · have h0 : (cellLogs logs b t).length = 0 := Nat.eq_zero_of_not_pos hc
      refine ⟨?_, fun hpos => absurd hpos hc, fun _ => ⟨?_, ?_⟩⟩
      · simp only [computeCell, if_neg hc]
        exact h0.symm
      · simp only [computeCell, if_neg hc]
      · simp only [computeCell, if_neg hc]

/-- Witness for C2: the spec's example record contributes to the grid. -/
theorem c2_matrix_cells_witness :
    ∃ b ∈ doseBuckets, ∃ t ∈ timeBuckets,
      eveningLog7 ∈ cellLogs [eveningLog7] b t :=
  ((c2_matrix_cells [eveningLog7]).1 eveningLog7 (by decide)).mpr
    ⟨⟨7, rfl, by decide, by decide⟩, rfl, rfl, rfl⟩

/-- C2 as stated is false on the code: a record with a positive truthy
`estimatedMg = 999`, a time of day, and both levels present contributes to
no cell of the grid. -/
theorem c2_counterexample :
    qualifiesLog dose999Record = true ∧
    dose999Record.estimatedMg = some 999 ∧
    ∀ b ∈ doseBuckets, ∀ t ∈ timeBuckets,
      dose999Record ∉ cellLogs [dose999Record] b t := by
  exact ⟨by decide, rfl, by decide⟩

end NicoTracker
